import Mathlib

/-!
# Verification of the Maritime AI realtime audio/session engine

A shallow embedding of the core of the `maritime-ai` repository:

* the frame codec (`createPcmBlob`, `base64ToPCM`, `convertPCMToAudioBuffer`)
  and the resampler (`downsampleTo16k`, both the boxcar and the linear
  variant) from `services/audio.ts`;
* the retry helper (`retryWithBackoff`) and the error translator
  (`getFriendlyErrorMessage`) from `services/utils.ts`;
* the session orchestrator hook (`useMaritimeSession`: the per-attempt
  callbacks of `startSession`, the playback scheduler `playAudioChunk`,
  the reconnect policy of `onStateChange`) from `hooks/useMaritimeSession.ts`;
* the asset production queue (`useAssetManager`) from
  `hooks/useAssetManager.ts`.

Numeric audio data (JS `number` / `Float32Array` samples, clock times) is
modelled over `ℚ`; all quantities appearing in the verified statements are
exactly representable, so exact rational arithmetic coincides with the
source's floating-point evaluation on them.  Byte buffers are `List Nat`
(each element `< 256`), binary strings are their code-unit lists, and the
stateful hooks are explicit state-passing functions on a state record, one
function per source callback, with the captured `currentAttemptId` passed
explicitly.
-/

/-! ## Base64 (the JS `btoa` / `atob` builtins used by the codec)

`btoa` maps a binary string (code units < 256) to its base64 text; `atob`
is the inverse.  Strings are modelled as lists of code units.  The
alphabet is the standard one: `A-Z`, `a-z`, `0-9`, `+`, `/`, with `=`
(code 61) as padding. -/

/-- Code of the base64 digit for a sextet (`0 ≤ n < 64`). -/
def encSextet (n : Nat) : Nat :=
  if n < 26 then 65 + n            -- 'A'..'Z'
  else if n < 52 then 97 + (n - 26) -- 'a'..'z'
  else if n < 62 then 48 + (n - 52) -- '0'..'9'
  else if n = 62 then 43            -- '+'
  else 47                           -- '/'

/-- Sextet denoted by a base64 digit code. -/
def decSextet (c : Nat) : Nat :=
  if 65 ≤ c ∧ c ≤ 90 then c - 65
  else if 97 ≤ c ∧ c ≤ 122 then c - 71
  else if 48 ≤ c ∧ c ≤ 57 then c + 4
  else if c = 43 then 62
  else if c = 47 then 63
  else 0

/-- `btoa`: base64-encode a byte list (the code units of a JS binary
string), emitting the code units of the base64 text, with `=` padding. -/
def btoaBytes : List Nat → List Nat
  | [] => []
  | [a] => [encSextet (a / 4), encSextet (a % 4 * 16), 61, 61]
  | [a, b] => [encSextet (a / 4), encSextet (a % 4 * 16 + b / 16),
               encSextet (b % 16 * 4), 61]
  | a :: b :: c :: rest =>
      encSextet (a / 4) :: encSextet (a % 4 * 16 + b / 16) ::
      encSextet (b % 16 * 4 + c / 64) :: encSextet (c % 64) :: btoaBytes rest

/-- `atob`: decode base64 text (as code units) back to the byte list. -/
def atobBytes : List Nat → List Nat
  | c1 :: c2 :: c3 :: c4 :: rest =>
      if c3 = 61 then [decSextet c1 * 4 + decSextet c2 / 16]
      else if c4 = 61 then
        [decSextet c1 * 4 + decSextet c2 / 16,
         decSextet c2 % 16 * 16 + decSextet c3 / 4]
      else
        (decSextet c1 * 4 + decSextet c2 / 16) ::
        (decSextet c2 % 16 * 16 + decSextet c3 / 4) ::
        (decSextet c3 % 4 * 64 + decSextet c4) :: atobBytes rest
  | _ => []

/-! ## The frame codec (`services/audio.ts`) -/

/-- Truncation toward zero: the conversion JS applies when a `number` is
stored into an `Int16Array` (`ToInt16`, no wrap occurring in range). -/
def ratTrunc (q : ℚ) : ℤ := if 0 ≤ q then ⌊q⌋ else ⌈q⌉

/-- One sample of `createPcmBlob`'s loop:
`int16[i] = Math.max(-1, Math.min(1, data[i])) * 32767`. -/
def sampleToInt16 (x : ℚ) : ℤ := ratTrunc (max (-1) (min 1 x) * 32767)

/-- The two little-endian bytes of a 16-bit value as laid out in the
`Int16Array` buffer viewed through `Uint8Array` (two's complement). -/
def int16ToBytes (v : ℤ) : List Nat :=
  [(v % 65536).toNat % 256, (v % 65536).toNat / 256]

/-- Signed 16-bit little-endian read of two bytes (an `Int16Array` view). -/
def bytesToInt16 (lo hi : Nat) : ℤ :=
  let u := lo + 256 * hi
  if u < 32768 then (u : ℤ) else (u : ℤ) - 65536

/-- The blob returned by `createPcmBlob`: base64 payload plus mime type. -/
structure PcmBlob where
  data : List Nat
  mimeType : String
deriving DecidableEq, Repr

/-- `createPcmBlob` (`services/audio.ts`): clamp each float sample to
[-1,1], scale by 32767 into an `Int16Array`, view the buffer as bytes and
base64-encode them (`btoa` over the binary string). -/
def createPcmBlob (data : List ℚ) (sampleRate : Nat := 16000) : PcmBlob :=
  let int16 := data.map sampleToInt16
  let uint8 := int16.flatMap int16ToBytes
  let b64 := btoaBytes uint8
  { data := b64, mimeType := s!"audio/pcm;rate={sampleRate}" }

/-- `base64ToPCM` (`services/audio.ts`): `atob` the payload and copy the
code units into a byte buffer (the copy is the identity on code units). -/
def base64ToPCM (base64 : List Nat) : List Nat := atobBytes base64

/-- `convertPCMToAudioBuffer` (`services/audio.ts`): truncate the byte
buffer to an even length (`alignedLength = byteLength - byteLength % 2`),
reinterpret as little-endian `Int16Array` and divide each value by 32768.
The recursion consumes two bytes per sample and drops a trailing odd
byte, which is exactly the aligned-prefix semantics of the source. -/
def convertPCMToAudioBuffer : List Nat → List ℚ
  | lo :: hi :: rest => (bytesToInt16 lo hi : ℚ) / 32768 :: convertPCMToAudioBuffer rest
  | _ => []

/-- `convertPCMToAudioBuffer` as duplicated in `services/gemini.ts`
(part of the integrated-architecture service file): it builds
`new Int16Array(pcmData)` over the whole buffer with no alignment fix, a
constructor that throws a `RangeError` when the byte length is odd.
`none` models the throw. -/
def convertPCMToAudioBufferGemini (pcmData : List Nat) : Option (List ℚ) :=
  if pcmData.length % 2 = 0 then some (convertPCMToAudioBuffer pcmData) else none

/-! ## The resampler (`downsampleTo16k`, both variants) -/

/-- `downsampleTo16k` (`services/audio.ts`, boxcar/averaging variant):
identity at 16 kHz; otherwise `newLength = ceil(len / ratio)` outputs,
each the mean of the source window `[floor(i*ratio), floor((i+1)*ratio))`
clipped to the buffer, falling back to `buffer[start]` for an empty
window. -/
def downsampleTo16k (buffer : List ℚ) (inputRate : ℚ) : List ℚ :=
  if inputRate = 16000 then buffer else
  let ratio := inputRate / 16000
  let newLength := (⌈(buffer.length : ℚ) / ratio⌉).toNat
  (List.range newLength).map (fun (i : Nat) =>
    let start := (⌊(i : ℚ) * ratio⌋).toNat
    let stop := (⌊((i : ℚ) + 1) * ratio⌋).toNat
    let window := (buffer.drop start).take (stop - start)
    if window.length > 0 then window.sum / (window.length : ℚ)
    else buffer.getD start 0)

/-- `downsampleTo16k` (second `services/audio.ts` variant, linear
interpolation): same length law; each output reads the fractional source
position `i * ratio` and linearly interpolates between the two adjacent
samples, falling back to the sample at `index` when `index + 1` is out of
range. -/
def downsampleTo16kLinear (buffer : List ℚ) (inputRate : ℚ) : List ℚ :=
  if inputRate = 16000 then buffer else
  let ratio := inputRate / 16000
  let newLength := (⌈(buffer.length : ℚ) / ratio⌉).toNat
  (List.range newLength).map (fun (i : Nat) =>
    let position := (i : ℚ) * ratio
    let index := (⌊position⌋).toNat
    let fraction := position - (⌊position⌋ : ℚ)
    if index + 1 < buffer.length then
      buffer.getD index 0 + fraction * (buffer.getD (index + 1) 0 - buffer.getD index 0)
    else buffer.getD index 0)

/-! ## Errors, error translation and retry (`services/utils.ts`) -/

/-- A JS error as observed by the utilities: an optional HTTP status
(`error.status || error.response?.status`; `none` models a plain network
or runtime error with no status) and a message. -/
structure JsError where
  status : Option Nat
  message : String
deriving DecidableEq, Repr

/-- JS `String.prototype.includes`. -/
def strIncludes (s pat : String) : Bool := decide (pat.toList <:+: s.toList)

/-- `status >= 500` under JS semantics (`undefined >= 500` is false). -/
def statusGE500 : Option Nat → Bool
  | some st => 500 ≤ st
  | none => false

/-- `getFriendlyErrorMessage` (`services/utils.ts`): map an error to one
of the fixed operator-facing sentences, falling back to a truncated
`System Error:` line. -/
def getFriendlyErrorMessage (error : Option JsError) : String :=
  match error with
  | none => "Unknown system error."
  | some e =>
    let msg := e.message.toLower
    if e.status = some 401 ∨ strIncludes msg "api key" then
      "Authentication Failed: Invalid API Key."
    else if e.status = some 403 then "Access Denied: Permissions restricted."
    else if e.status = some 429 then "System Busy: Rate limit exceeded. Please wait."
    else if statusGE500 e.status then "Neural Core Offline: Server temporary error."
    else if strIncludes msg "fetch" ∨ strIncludes msg "network" ∨
            strIncludes msg "failed to fetch" then
      "Connection Lost: Check network settings."
    else if strIncludes msg "safety" ∨ strIncludes msg "blocked" ∨
            strIncludes msg "finishreason" then
      "Safety Protocol: Content flagged and blocked."
    else if strIncludes msg "candidate" ∧ strIncludes msg "empty" then
      "Model Error: Received empty response."
    else if strIncludes msg "parse" then "Data Error: Received malformed data."
    else
      let m := msg.take 60
      s!"System Error: {m}..."

/-- The non-retryable test of `retryWithBackoff`:
`status && status >= 400 && status < 500 && status !== 429`. -/
def nonRetryable (e : JsError) : Bool :=
  match e.status with
  | some st => decide (400 ≤ st ∧ st < 500 ∧ st ≠ 429)
  | none => false

/-- `retryWithBackoff` (`services/utils.ts`, duplicated verbatim in
`services/gemini.ts`): run the operation; on failure, throw if no retries
are left or the error is a non-retryable 4xx (≠ 429), otherwise sleep
`delay` ms and recurse with `retries - 1` and `delay * 2`.  The operation
is modelled as a function from the attempt index to its outcome; the
returned list records the delays actually slept, in order. -/
def retryWithBackoff {α : Type} (op : Nat → Except JsError α)
    (retries : Nat) (delay : Nat) (attempt : Nat) : Except JsError α × List Nat :=
  match op attempt with
  | .ok v => (.ok v, [])
  | .error e =>
    match retries with
    | 0 => (.error e, [])
    | r + 1 =>
      if nonRetryable e then (.error e, [])
      else
        let rest := retryWithBackoff op r (delay * 2) (attempt + 1)
        (rest.1, delay :: rest.2)

/-! ## The session orchestrator (`hooks/useMaritimeSession.ts`, split/relay
variant of `part_013` lines 117-460)

The hook's shared mutable state — React state cells, refs, the
`localStorage` auto-reconnect flag, the audio output graph — is one state
record.  Each callback registered by `startSession` becomes a function on
that record; the `currentAttemptId` that the source closure captures is an
explicit first argument.  `crypto.randomUUID()` is modelled by the fresh
counter `nextId`; wall-clock (`Date.now()`) and audio-clock
(`ctx.currentTime`) reads become explicit `now` arguments.  A scheduled
`setTimeout` is recorded as data (`reconnectTimer`, `pendingBrainTasks`)
rather than executed. -/

namespace Maritime

/-- `ConnectionState` (`services/client.ts`). -/
inductive ConnectionState where
  | DISCONNECTED | CONNECTING | CONNECTED | DISCONNECTING
deriving DecidableEq, Repr

/-- `MessageRole` (`types.ts`). -/
inductive MessageRole where
  | USER | ASSISTANT | SYSTEM
deriving DecidableEq, Repr

/-- `ChatMessage` (`types.ts`); ids come from the fresh-id counter. -/
structure ChatMessage where
  id : Nat
  role : MessageRole
  content : String
  timestamp : ℤ
deriving DecidableEq, Repr

/-- `ProcessingStage` (`'idle' | 'listening' | 'thinking' | 'replying'`). -/
inductive ProcessingStage where
  | idle | listening | thinking | replying
deriving DecidableEq, Repr

/-- A pending reconnect `setTimeout`: the attempt id its closure captured,
the captured `ragMode`, and the backoff delay in ms.  (Its body re-reads
the documents from `documentsRef` when it fires.) -/
structure ReconnectTimer where
  attemptId : Nat
  ragMode : Bool
  delayMs : Nat
deriving DecidableEq, Repr

/-- One source node scheduled by `playAudioChunk`: its `source.start`
time and its buffer duration (seconds, on the audio clock). -/
structure ScheduledBlock where
  start : ℚ
  duration : ℚ
deriving DecidableEq, Repr

/-- A deferred background-brain `setTimeout` scheduled by
`onTurnComplete`: the captured attempt id and user query. -/
structure BrainTask where
  attemptId : Nat
  query : String
deriving DecidableEq, Repr

/-- `KnowledgeDocument` projection used by the hook (name and content). -/
structure KnowledgeDocument where
  name : String
  content : String
deriving DecidableEq, Repr

/-- The shared state of `useMaritimeSession`. -/
structure OrchState where
  connectionState : ConnectionState
  messages : List ChatMessage
  userIsSpeaking : Bool
  isSpeaking : Bool
  processingStage : ProcessingStage
  nextStartTime : ℚ
  activeAudioSources : List ScheduledBlock
  activeSessionId : Option Nat
  sessionStartTime : ℤ
  accumulatedUser : String
  activeUserMsgId : Option Nat
  activeModelMsgId : Option Nat
  reconnectTimer : Option ReconnectTimer
  autoconnect : Bool
  liveClient : Option Nat
  pendingBrainTasks : List BrainTask
  documents : List KnowledgeDocument
  nextId : Nat
deriving DecidableEq, Repr

/-- `addMessage`: append a message with a fresh id and the current time. -/
def addMessage (role : MessageRole) (content : String) (now : ℤ)
    (s : OrchState) : OrchState :=
  { s with
    messages := s.messages ++ [{ id := s.nextId, role := role, content := content,
                                 timestamp := now }]
    nextId := s.nextId + 1 }

/-- `stopAllAudio`: stop and clear every tracked source, drop the
speaking flag, and reset the cursor to the current audio-clock time. -/
def stopAllAudio (audioNow : ℚ) (s : OrchState) : OrchState :=
  { s with
    activeAudioSources := []
    isSpeaking := false
    nextStartTime := audioNow }

/-- `playAudioChunk`: decode the PCM bytes, build a source node, push the
cursor to `currentTime + 0.01` if it has fallen strictly behind the
clock, start the node at the cursor, advance the cursor by the buffer
duration, track the node and raise the speaking flag.  The decoded buffer
plays at 24 kHz, so its duration is `length / 24000` seconds. -/
def playAudioChunk (pcmData : List Nat) (audioNow : ℚ) (s : OrchState) : OrchState :=
  let audioBuffer := convertPCMToAudioBuffer pcmData
  let duration := (audioBuffer.length : ℚ) / 24000
  let startTime := if s.nextStartTime < audioNow then audioNow + 1/100 else s.nextStartTime
  { s with
    nextStartTime := startTime + duration
    activeAudioSources := s.activeAudioSources ++ [{ start := startTime, duration := duration }]
    isSpeaking := true }

/-- The `onStateChange` callback built by `startSession`: stale-attempt
guard, state publication, the `CONNECTED` bookkeeping, and on
`DISCONNECTED` the crash-loop-guarded reconnect policy. -/
def onStateChange (cid : Nat) (ragMode : Bool) (state : ConnectionState)
    (now : ℤ) (s : OrchState) : OrchState :=
  if s.activeSessionId ≠ some cid then s else
  let s := { s with connectionState := state }
  let s :=
    if state = ConnectionState.CONNECTED then
      let s := { s with processingStage := .listening, autoconnect := true }
      addMessage .SYSTEM
        (if ragMode then "✓ System Online [RAG MODE ACTIVE]." else "✓ System Online.") now s
    else s
  if state = ConnectionState.DISCONNECTED then
    let s := { s with processingStage := .idle }
    let sessionDuration := now - s.sessionStartTime
    let shouldReconnect := s.autoconnect
    if shouldReconnect then
      if sessionDuration > 10000 then
        let s := addMessage .SYSTEM "Connection lost. Reconnecting..." now s
        { s with reconnectTimer := some { attemptId := cid, ragMode := ragMode, delayMs := 3000 } }
      else
        let s := addMessage .SYSTEM
          "Connection unstable (Immediate Disconnect). Auto-reconnect paused." now s
        { s with autoconnect := false }
    else s
  else s

/-- The `onAudioData` callback: play the chunk only for the live attempt. -/
def onAudioData (cid : Nat) (data : List Nat) (audioNow : ℚ) (s : OrchState) : OrchState :=
  if s.activeSessionId = some cid then playAudioChunk data audioNow s else s

/-- Replace the content of the first message with the given id (the
source's `newHistory.find(...)` followed by in-place mutation). -/
def updateContent (msgs : List ChatMessage) (mid : Nat) (content : String) :
    List ChatMessage :=
  match msgs with
  | [] => []
  | m :: rest =>
    if m.id = mid then { m with content := content } :: rest
    else m :: updateContent rest mid content

/-- The `onTranscript` callback: stale-attempt guard, accumulate the user
transcript, then update-or-create the in-flight user and model messages
(lazily minted ids, updated in place). -/
def onTranscript (cid : Nat) (user model : String) (now : ℤ) (s : OrchState) : OrchState :=
  if s.activeSessionId ≠ some cid then s else
  let s := if user ≠ "" then { s with accumulatedUser := user } else s
  let s :=
    if user ≠ "" then
      match s.activeUserMsgId with
      | some mid => { s with messages := updateContent s.messages mid user }
      | none =>
        { s with
          activeUserMsgId := some s.nextId
          messages := s.messages ++ [{ id := s.nextId, role := .USER, content := user,
                                       timestamp := now }]
          nextId := s.nextId + 1 }
    else s
  if model ≠ "" then
    match s.activeModelMsgId with
    | some mid => { s with messages := updateContent s.messages mid model }
    | none =>
      { s with
        activeModelMsgId := some s.nextId
        messages := s.messages ++ [{ id := s.nextId, role := .ASSISTANT, content := model,
                                     timestamp := now }]
        nextId := s.nextId + 1 }
  else s

/-- The `onTurnComplete` callback (split architecture): stale-attempt
guard, then the stage transition — from `listening`, schedule the
background-brain task (when the accumulated query is non-trivial) and
move to `thinking`; from `replying`, clear the in-flight message ids and
return to `listening`. -/
def onTurnComplete (cid : Nat) (s : OrchState) : OrchState :=
  if s.activeSessionId ≠ some cid then s else
  match s.processingStage with
  | .listening =>
    let userQuery := s.accumulatedUser
    let s :=
      if userQuery ≠ "" ∧ userQuery.trim.length > 1 then
        { s with pendingBrainTasks := s.pendingBrainTasks ++ [{ attemptId := cid, query := userQuery }] }
      else s
    { s with processingStage := .thinking }
  | .replying =>
    { s with activeUserMsgId := none, activeModelMsgId := none,
             processingStage := .listening }
  | _ => s

/-- The `onInterrupted` callback: stale-attempt guard, stop all audio,
clear the in-flight message ids, back to `listening`. -/
def onInterrupted (cid : Nat) (audioNow : ℚ) (s : OrchState) : OrchState :=
  if s.activeSessionId ≠ some cid then s else
  let s := stopAllAudio audioNow s
  { s with activeUserMsgId := none, activeModelMsgId := none,
           processingStage := .listening }

/-- The `onVolumeChange` callback: stale-attempt guard, then publish the
`vol > 0.01` speaking indicator. -/
def onVolumeChange (cid : Nat) (vol : ℚ) (s : OrchState) : OrchState :=
  if s.activeSessionId = some cid then
    { s with userIsSpeaking := decide (vol > 1/100) }
  else s

/-- The `onError` callback: stale-attempt guard, log the translated
error, and on a quota/billing signature disable auto-reconnect and cancel
any pending reconnect timer. -/
def onError (cid : Nat) (err : JsError) (now : ℤ) (s : OrchState) : OrchState :=
  if s.activeSessionId ≠ some cid then s else
  let msg := getFriendlyErrorMessage (some err)
  let s := addMessage .SYSTEM s!"Error: {msg}" now s
  if strIncludes msg "Quota" ∨ strIncludes msg "Billing" then
    { s with autoconnect := false, reconnectTimer := none }
  else s

/-- The continuation of `startSession` after `await client.connect()`
settles (`clientId` names the freshly constructed client).  On rejection,
a still-live attempt logs the translated error, publishes
`DISCONNECTED` and disables auto-reconnect; a stale one returns
untouched.  On success, a still-live attempt publishes the client into
`liveClientRef`; a stale one only disconnects its own never-published
client. -/
def afterConnect (cid clientId : Nat) (result : Except JsError Unit) (now : ℤ)
    (s : OrchState) : OrchState :=
  match result with
  | .error e =>
    if s.activeSessionId = some cid then
      let msg := getFriendlyErrorMessage (some e)
      let s := addMessage .SYSTEM s!"Error: {msg}" now s
      { s with connectionState := .DISCONNECTED, autoconnect := false }
    else s
  | .ok _ =>
    if s.activeSessionId ≠ some cid then s
    else { s with liveClient := some clientId }

end Maritime

/-! ## The asset production queue (`hooks/useAssetManager.ts`)

The queue-processing effect body is split at its `await`: `beginJob` is
the synchronous prefix (the guard, marking processing, dequeuing the head
and logging), `finishJob` is the continuation once the dispatched remote
generation call settles.  The remote call's outcome is an explicit
argument.  `crypto.randomUUID()` is again a fresh counter and
`Date.now()` an explicit argument. -/

namespace AssetQueue

/-- The `reason` field of a `ProposedAsset`. -/
inductive AssetReason where
  | user_request | system_suggestion | noReason
deriving DecidableEq, Repr

/-- `ProposedAsset` (`hooks/useAssetManager.ts`). -/
structure ProposedAsset where
  type : String
  description : String
  reason : AssetReason
deriving DecidableEq, Repr

/-- The structured payload of a generated asset: chart rows (lists of
key/value pairs) or diagram source. -/
inductive AssetData where
  | chartRows (rows : List (List (String × String)))
  | code (src : String)
deriving DecidableEq, Repr

/-- `GeneratedAsset` (`types.ts`, the fields the hook uses). -/
structure GeneratedAsset where
  id : Nat
  type : String
  description : String
  createdAt : ℤ
  url : Option String
  data : Option AssetData
deriving DecidableEq, Repr

/-- What a dispatched generation call returned: a URL/URI (image, video)
or structured data (chart rows, diagram source). -/
inductive GenResult where
  | url (u : String)
  | data (d : AssetData)
deriving DecidableEq, Repr

/-- The shared state of `useAssetManager`.  `log` collects the
`addSystemMessage` output; `inFlight` is the job the awaited generation
call was dispatched for (the closure-held `currentRequest`). -/
structure AMState where
  assets : List GeneratedAsset
  activeAssetId : Option Nat
  proposedAsset : Option ProposedAsset
  assetQueue : List ProposedAsset
  isProcessing : Bool
  inFlight : Option ProposedAsset
  log : List String
  nextId : Nat
deriving DecidableEq, Repr

/-- `queueAsset`: append a job to the queue. -/
def queueAsset (ty desc : String) (reason : AssetReason) (s : AMState) : AMState :=
  { s with assetQueue := s.assetQueue ++ [{ type := ty, description := desc, reason := reason }] }

/-- `approveProposedAsset`: push the held proposal into the queue. -/
def approveProposedAsset (s : AMState) : AMState :=
  match s.proposedAsset with
  | some p => { s with assetQueue := s.assetQueue ++ [p], proposedAsset := none }
  | none => s

/-- `dismissProposedAsset`: discard the held proposal. -/
def dismissProposedAsset (s : AMState) : AMState :=
  { s with proposedAsset := none }

/-- The synchronous prefix of `processQueue`: return unchanged if already
processing or the queue is empty; otherwise take the head job, set the
processing flag, remove it from the queue and log the progress line. -/
def beginJob (s : AMState) : AMState :=
  if s.isProcessing ∨ s.assetQueue = [] then s else
  match s.assetQueue with
  | [] => s
  | j :: rest =>
    let t := j.type
    { s with
      isProcessing := true
      assetQueue := rest
      inFlight := some j
      log := s.log ++ [s!"Generating {t}..."] }

/-- The markdown chart table of `processQueue`'s success branch
(`Object.keys` of the first row, then one `|`-separated line per row). -/
def chartMarkdown (rows : List (List (String × String))) : String :=
  let keys := (rows.headD []).map Prod.fst
  let headerCells := String.intercalate " | " keys
  let header := s!"| {headerCells} |"
  let sepCells := String.intercalate " | " (keys.map (fun _ => "---"))
  let separator := s!"| {sepCells} |"
  let line := fun (row : List (String × String)) =>
    let cells := keys.map (fun k => ((row.find? (fun kv => kv.fst = k)).map Prod.snd).getD "")
    let joined := String.intercalate " | " cells
    s!"| {joined} |"
  let body := String.intercalate "\n" (rows.map line)
  s!"CHART DATA:\n{header}\n{separator}\n{body}"

/-- The failure log line of `processQueue`'s catch block. -/
def failLog (e : JsError) (description : String) : String :=
  let friendlyMsg := getFriendlyErrorMessage (some e)
  s!"❌ Generation Failed: {friendlyMsg}\nRequest: {description}"

/-- The error thrown when generation yields neither URL nor data. -/
def emptyResultError : JsError := { status := none, message := "Generation returned empty result" }

/-- The continuation of `processQueue` after the dispatched generation
call settles.  Per the source's kind dispatch, a URL result populates
`url` for image/video jobs and a data result populates `data` for
chart/diagram jobs; an empty asset (unknown kind or mismatched result)
takes the thrown-`Error` path.  Success appends the asset, makes it
active, and logs (with the chart table / diagram source block); failure
logs the translated error.  The `finally` clause clears the processing
flag in every case. -/
def finishJob (outcome : Except JsError GenResult) (now : ℤ) (s : AMState) : AMState :=
  match s.inFlight with
  | none => s
  | some j =>
    let t := j.type
    let d := j.description
    let base : GeneratedAsset :=
      { id := s.nextId, type := t, description := d, createdAt := now,
        url := none, data := none }
    let s' :=
      match outcome with
      | .error e =>
        { s with log := s.log ++ [failLog e d] }
      | .ok r =>
        let assetData :=
          if t = "image" ∨ t = "video" then
            match r with
            | .url u => { base with url := some u }
            | .data _ => base
          else if t = "chart" ∨ t = "diagram" then
            match r with
            | .data dt => { base with data := some dt }
            | .url _ => base
          else base
        if assetData.url.isSome ∨ assetData.data.isSome then
          let s := { s with
            assets := s.assets ++ [assetData]
            activeAssetId := some assetData.id
            nextId := s.nextId + 1
            log := s.log ++ [s!"✅ Generated {t} successfully: {d}"] }
          let markdownLog :=
            match assetData.type, assetData.data with
            | "chart", some (.chartRows rows) =>
              if rows ≠ [] then some (chartMarkdown rows) else none
            | "diagram", some (.code src) =>
              some s!"DIAGRAM SOURCE:\n```mermaid\n{src}\n```"
            | _, _ => none
          match markdownLog with
          | some m => { s with log := s.log ++ [m] }
          | none => s
        else
          { s with log := s.log ++ [failLog emptyResultError d] }
    { s' with isProcessing := false, inFlight := none }

/-- One full tick of the queue — `beginJob` then, if a job was taken, the
settled continuation — iterated over a list of remote outcomes.  Returns
the final state and the jobs consumed, in consumption order. -/
def drain (now : ℤ) : AMState → List (Except JsError GenResult) → AMState × List ProposedAsset
  | s, [] => (s, [])
  | s, o :: os =>
    let s1 := beginJob s
    match s1.inFlight with
    | some j =>
      let s2 := finishJob o now s1
      let rest := drain now s2 os
      (rest.1, j :: rest.2)
    | none => (s, [])

end AssetQueue

/-! ## Concrete fixtures used by witnesses and counterexamples -/

/-- A benign orchestrator state: live attempt 0, auto-reconnect on,
empty logs, cursor at 0. -/
def Maritime.baseState : Maritime.OrchState where
  connectionState := .DISCONNECTED
  messages := []
  userIsSpeaking := false
  isSpeaking := false
  processingStage := .idle
  nextStartTime := 0
  activeAudioSources := []
  activeSessionId := some 0
  sessionStartTime := 0
  accumulatedUser := ""
  activeUserMsgId := none
  activeModelMsgId := none
  reconnectTimer := none
  autoconnect := true
  liveClient := none
  pendingBrainTasks := []
  documents := []
  nextId := 0

/-- An empty asset-manager state. -/
def AssetQueue.emptyState : AssetQueue.AMState where
  assets := []
  activeAssetId := none
  proposedAsset := none
  assetQueue := []
  isProcessing := false
  inFlight := none
  log := []
  nextId := 0

/-! ## Helper lemmas: base64 round trip -/

theorem decSextet_encSextet : ∀ n < 64, decSextet (encSextet n) = n := by decide

theorem encSextet_ne_61 (n : Nat) : encSextet n ≠ 61 := by
  unfold encSextet
  split_ifs <;> omega

theorem atob_btoa : ∀ (bs : List Nat), (∀ b ∈ bs, b < 256) →
    atobBytes (btoaBytes bs) = bs
  | [] => fun _ => rfl
  | [a] => fun h => by
      have ha : a < 256 := h a (by simp)
      simp only [btoaBytes, atobBytes, if_pos]
      rw [decSextet_encSextet (a / 4) (by omega),
          decSextet_encSextet (a % 4 * 16) (by omega)]
      congr 1
      omega
  | [a, b] => fun h => by
      have ha : a < 256 := h a (by simp)
      have hb : b < 256 := h b (by simp)
      simp only [btoaBytes, atobBytes,
        if_neg (encSextet_ne_61 (b % 16 * 4)), if_pos]
      rw [decSextet_encSextet (a / 4) (by omega),
          decSextet_encSextet (a % 4 * 16 + b / 16) (by omega),
          decSextet_encSextet (b % 16 * 4) (by omega)]
      congr 1
      · omega
      congr 1
      omega
  | a :: b :: c :: rest => fun h => by
      have ha : a < 256 := h a (by simp)
      have hb : b < 256 := h b (by simp)
      have hc : c < 256 := h c (by simp)
      have ih := atob_btoa rest (fun x hx => h x (by simp [hx]))
      simp only [btoaBytes, atobBytes,
        if_neg (encSextet_ne_61 (b % 16 * 4 + c / 64)),
        if_neg (encSextet_ne_61 (c % 64))]
      rw [decSextet_encSextet (a / 4) (by omega),
          decSextet_encSextet (a % 4 * 16 + b / 16) (by omega),
          decSextet_encSextet (b % 16 * 4 + c / 64) (by omega),
          decSextet_encSextet (c % 64) (by omega), ih]
      congr 1
      · omega
      congr 1
      · omega
      congr 1
      omega

/-! ## Helper lemmas: 16-bit PCM -/

theorem int16ToBytes_lt (v : ℤ) : ∀ b ∈ int16ToBytes v, b < 256 := by
  intro b hb
  simp only [int16ToBytes, List.mem_cons, List.mem_singleton] at hb
  rcases hb with h | h | h
  · omega
  · omega
  · simp at h

theorem bytesToInt16_int16ToBytes (v : ℤ) (h1 : -32768 ≤ v) (h2 : v < 32768) :
    bytesToInt16 ((v % 65536).toNat % 256) ((v % 65536).toNat / 256) = v := by
  simp only [bytesToInt16]
  split_ifs <;> omega

theorem sampleToInt16_bounds (x : ℚ) :
    -32767 ≤ sampleToInt16 x ∧ sampleToInt16 x ≤ 32767 := by
  have h1 : (-1 : ℚ) ≤ max (-1) (min 1 x) := le_max_left _ _
  have h2 : max (-1) (min 1 x) ≤ 1 := max_le (by norm_num) (min_le_left _ _)
  have hq1 : (-32767 : ℚ) ≤ max (-1) (min 1 x) * 32767 := by nlinarith
  have hq2 : max (-1) (min 1 x) * 32767 ≤ 32767 := by nlinarith
  unfold sampleToInt16 ratTrunc
  split_ifs with h0
  · constructor
    · have : (0 : ℤ) ≤ ⌊max (-1) (min 1 x) * 32767⌋ := Int.floor_nonneg.mpr h0
      omega
    · have := Int.floor_le_floor hq2
      rwa [show ⌊(32767 : ℚ)⌋ = 32767 by norm_num] at this
  · constructor
    · have := Int.ceil_le_ceil hq1
      rwa [show ⌈(-32767 : ℚ)⌉ = -32767 by
        rw [show ((-32767 : ℚ)) = ((-32767 : ℤ) : ℚ) by norm_num, Int.ceil_intCast]] at this
    · have hc : ⌈max (-1) (min 1 x) * 32767⌉ ≤ ⌈(32767 : ℚ)⌉ := Int.ceil_le_ceil hq2
      rw [show ⌈(32767 : ℚ)⌉ = 32767 by
        rw [show ((32767 : ℚ)) = ((32767 : ℤ) : ℚ) by norm_num, Int.ceil_intCast]] at hc
      omega

theorem convertPCM_flatMap : ∀ (vs : List ℤ), (∀ v ∈ vs, -32768 ≤ v ∧ v < 32768) →
    convertPCMToAudioBuffer (vs.flatMap int16ToBytes) =
      vs.map (fun v : ℤ => ((v : ℚ) / 32768))
  | [] => fun _ => rfl
  | v :: rest => fun h => by
      have hv := h v (by simp)
      have ih := convertPCM_flatMap rest (fun x hx => h x (by simp [hx]))
      simp only [List.flatMap_cons, List.map_cons]
      show convertPCMToAudioBuffer
        ((v % 65536).toNat % 256 :: (v % 65536).toNat / 256 :: rest.flatMap int16ToBytes) = _
      rw [convertPCMToAudioBuffer, bytesToInt16_int16ToBytes v hv.1 hv.2, ih]

theorem sampleToInt16_quantized (k : ℤ) (hk1 : -32768 ≤ k) (hk2 : k ≤ 32768) :
    sampleToInt16 ((k : ℚ) / 32768) =
      if 0 < k then k - 1 else if k < 0 then k + 1 else 0 := by
  have h32 : (0 : ℚ) < 32768 := by norm_num
  have hkq1 : (-32768 : ℚ) ≤ (k : ℚ) := by exact_mod_cast hk1
  have hkq2 : (k : ℚ) ≤ 32768 := by exact_mod_cast hk2
  have hx1 : (-1 : ℚ) ≤ (k : ℚ) / 32768 := by
    rw [le_div_iff₀ h32]; linarith
  have hx2 : (k : ℚ) / 32768 ≤ 1 := by
    rw [div_le_one h32]; linarith
  have hclamp : max (-1) (min 1 ((k : ℚ) / 32768)) = (k : ℚ) / 32768 := by
    rw [min_eq_right hx2, max_eq_right hx1]
  unfold sampleToInt16 ratTrunc
  rw [hclamp, div_mul_eq_mul_div]
  rcases lt_trichotomy k 0 with hk | hk | hk
  · have hkq : (k : ℚ) < 0 := by exact_mod_cast hk
    have hq : (k : ℚ) * 32767 / 32768 < 0 := by
      apply div_neg_of_neg_of_pos _ h32
      nlinarith
    rw [if_neg (by linarith), if_neg (by omega), if_pos hk]
    rw [Int.ceil_eq_iff]
    constructor
    · push_cast
      rw [lt_div_iff₀ h32]
      ring_nf
      nlinarith
    · push_cast
      rw [div_le_iff₀ h32]
      ring_nf
      nlinarith
  · subst hk
    norm_num
  · have hkq : (0 : ℚ) < (k : ℚ) := by exact_mod_cast hk
    have hq : (0 : ℚ) ≤ (k : ℚ) * 32767 / 32768 := by
      apply div_nonneg _ (le_of_lt h32)
      nlinarith
    rw [if_pos hq, if_pos hk]
    rw [Int.floor_eq_iff]
    constructor
    · push_cast
      rw [le_div_iff₀ h32]
      ring_nf
      nlinarith
    · push_cast
      rw [div_lt_iff₀ h32]
      ring_nf
      nlinarith

/-! ## C6: codec round trip through base64 -/

/-- C6: for every block of samples in [-1, 1] quantized to 16-bit
granularity (each sample of the form `k / 32768` with
`-32768 ≤ k ≤ 32768`), decoding the encoded block — `base64ToPCM` then
`convertPCMToAudioBuffer` applied to the `createPcmBlob` payload,
including the base64 round trip — yields a block of the same length whose
samples each differ from the original by at most `1 / 32768`. -/
theorem pcm_roundtrip (data : List ℚ)
    (h : ∀ x ∈ data, ∃ k : ℤ, x = (k : ℚ) / 32768 ∧ -32768 ≤ k ∧ k ≤ 32768) :
    (convertPCMToAudioBuffer (base64ToPCM (createPcmBlob data).data)).length
        = data.length ∧
    ∀ i, i < data.length →
      |(convertPCMToAudioBuffer (base64ToPCM (createPcmBlob data).data)).getD i 0
          - data.getD i 0| ≤ 1 / 32768 := by
  have hbytes : ∀ b ∈ (data.map sampleToInt16).flatMap int16ToBytes, b < 256 := by
    intro b hb
    rw [List.mem_flatMap] at hb
    obtain ⟨v, _, hbv⟩ := hb
    exact int16ToBytes_lt v b hbv
  have hdec : base64ToPCM (createPcmBlob data).data
      = (data.map sampleToInt16).flatMap int16ToBytes := by
    unfold base64ToPCM createPcmBlob
    exact atob_btoa _ hbytes
  have hrange : ∀ v ∈ data.map sampleToInt16, -32768 ≤ v ∧ v < 32768 := by
    intro v hv
    rw [List.mem_map] at hv
    obtain ⟨x, _, rfl⟩ := hv
    have := sampleToInt16_bounds x
    omega
  have hbuf : convertPCMToAudioBuffer (base64ToPCM (createPcmBlob data).data)
      = data.map (fun x => ((sampleToInt16 x : ℚ) / 32768)) := by
    rw [hdec, convertPCM_flatMap _ hrange, List.map_map]
    rfl
  constructor
  · rw [hbuf, List.length_map]
  · intro i hi
    have hi' : i < (data.map (fun x => ((sampleToInt16 x : ℚ) / 32768))).length := by
      rwa [List.length_map]
    rw [hbuf, List.getD_eq_getElem _ _ hi', List.getD_eq_getElem _ _ hi,
        List.getElem_map]
    obtain ⟨k, hxk, hk1, hk2⟩ := h data[i] (List.getElem_mem hi)
    rw [hxk, sampleToInt16_quantized k hk1 hk2]
    rcases lt_trichotomy k 0 with hk | hk | hk
    · rw [if_neg (by omega), if_pos hk]
      have : ((k + 1 : ℤ) : ℚ) / 32768 - (k : ℚ) / 32768 = 1 / 32768 := by
        push_cast
        ring
      rw [this, abs_of_nonneg (by norm_num)]
    · subst hk
      norm_num
    · rw [if_pos hk]
      have : ((k - 1 : ℤ) : ℚ) / 32768 - (k : ℚ) / 32768 = -(1 / 32768) := by
        push_cast
        ring
      rw [this, abs_neg, abs_of_nonneg (by norm_num)]

/-- Witness for C6: the quantized block `[1, -1, 5/32768]` round-trips
within tolerance. -/
theorem pcm_roundtrip_witness :
    (∀ x ∈ ([1, -1, 5/32768] : List ℚ),
        ∃ k : ℤ, x = (k : ℚ) / 32768 ∧ -32768 ≤ k ∧ k ≤ 32768) ∧
    ((convertPCMToAudioBuffer
        (base64ToPCM (createPcmBlob ([1, -1, 5/32768] : List ℚ)).data)).length
          = ([1, -1, 5/32768] : List ℚ).length ∧
      ∀ i, i < ([1, -1, 5/32768] : List ℚ).length →
        |(convertPCMToAudioBuffer
            (base64ToPCM (createPcmBlob ([1, -1, 5/32768] : List ℚ)).data)).getD i 0
            - ([1, -1, 5/32768] : List ℚ).getD i 0| ≤ 1 / 32768) :=
  have hq : ∀ x ∈ ([1, -1, 5/32768] : List ℚ),
      ∃ k : ℤ, x = (k : ℚ) / 32768 ∧ -32768 ≤ k ∧ k ≤ 32768 := by
    intro x hx
    simp only [List.mem_cons, List.not_mem_nil, or_false] at hx
    rcases hx with rfl | rfl | rfl
    · exact ⟨32768, by norm_num, by norm_num, by norm_num⟩
    · exact ⟨-32768, by norm_num, by norm_num, by norm_num⟩
    · exact ⟨5, by norm_num, by norm_num, by norm_num⟩
  ⟨hq, pcm_roundtrip _ hq⟩

/-! ## C7: odd-length inbound defense -/

theorem convertPCM_append_odd : ∀ (bs : List Nat) (b : Nat), bs.length % 2 = 0 →
    convertPCMToAudioBuffer (bs ++ [b]) = convertPCMToAudioBuffer bs
  | [], _ => fun _ => rfl
  | [_], _ => fun h => by simp at h
  | lo :: hi :: rest, b => fun h => by
      have h' : rest.length % 2 = 0 := by
        simp only [List.length_cons] at h
        omega
      simp only [List.cons_append, convertPCMToAudioBuffer]
      show _ :: convertPCMToAudioBuffer (rest ++ [b]) = _ :: convertPCMToAudioBuffer rest
      rw [convertPCM_append_odd rest b h']

theorem convertPCM_length : ∀ bs : List Nat,
    (convertPCMToAudioBuffer bs).length = bs.length / 2
  | [] => rfl
  | [_] => by simp [convertPCMToAudioBuffer]
  | _ :: _ :: rest => by
      simp only [convertPCMToAudioBuffer, List.length_cons, convertPCM_length rest]
      omega

theorem convertPCM_getD : ∀ (bs : List Nat) (i : Nat), 2 * i + 1 < bs.length →
    (convertPCMToAudioBuffer bs).getD i 0 =
      (bytesToInt16 (bs.getD (2 * i) 0) (bs.getD (2 * i + 1) 0) : ℚ) / 32768
  | [], i => fun h => by simp at h
  | [_], i => fun h => by
      simp only [List.length_singleton] at h
      omega
  | lo :: hi :: rest, 0 => fun _ => by
      simp [convertPCMToAudioBuffer]
  | lo :: hi :: rest, i + 1 => fun h => by
      have h' : 2 * i + 1 < rest.length := by
        simp only [List.length_cons] at h
        omega
      have e1 : 2 * (i + 1) = 2 * i + 1 + 1 := by ring
      have e2 : 2 * (i + 1) + 1 = 2 * i + 1 + 1 + 1 := by ring
      simp only [convertPCMToAudioBuffer, List.getD_cons_succ, e1, e2]
      exact convertPCM_getD rest i h'

/-- C7: the `services/audio` inbound decoder drops a single trailing odd
byte and decodes the even-length prefix as little-endian signed 16-bit
integers rescaled by `1/32768` — appending a byte to an even-length
buffer does not change the decode, the output has `⌊n/2⌋` samples each
given by the little-endian pair formula — while the duplicated
`services/gemini` copy, lacking the alignment fix, throws on an odd
3-byte buffer (modelled as `none`). -/
theorem odd_length_decode_safe :
    (∀ (bs : List Nat) (b : Nat), bs.length % 2 = 0 →
        convertPCMToAudioBuffer (bs ++ [b]) = convertPCMToAudioBuffer bs) ∧
    (∀ bs : List Nat, (convertPCMToAudioBuffer bs).length = bs.length / 2) ∧
    (∀ (bs : List Nat) (i : Nat), 2 * i + 1 < bs.length →
        (convertPCMToAudioBuffer bs).getD i 0 =
          (bytesToInt16 (bs.getD (2 * i) 0) (bs.getD (2 * i + 1) 0) : ℚ) / 32768) ∧
    convertPCMToAudioBufferGemini [0, 0, 1] = none :=
  ⟨convertPCM_append_odd, convertPCM_length, convertPCM_getD, rfl⟩

/-- Witness for C7: a concrete odd 3-byte buffer `[7, 1, 9]` decodes like
its 2-byte prefix. -/
theorem odd_length_decode_safe_witness :
    ([7, 1] : List Nat).length % 2 = 0 ∧
    convertPCMToAudioBuffer ([7, 1] ++ [9]) = convertPCMToAudioBuffer [7, 1] :=
  ⟨by decide, odd_length_decode_safe.1 [7, 1] 9 (by decide)⟩

/-! ## C8: outbound clamping -/

/-- C8 counterexample: the encoder clamps `-2.0` to `-1` and scales by
32767, producing `-32767`, which is not the minimum representable 16-bit
value `-32768` asserted by the claim. -/
theorem clamp_counterexample :
    sampleToInt16 (-2) = -32767 ∧ (-32767 : ℤ) ≠ -32768 := by
  constructor
  · rw [sampleToInt16, ratTrunc]
    norm_num
    rw [show ((-32767 : ℚ)) = ((-32767 : ℤ) : ℚ) by norm_num, Int.ceil_intCast]
  · decide

/-- C8 (amended): `createPcmBlob`'s per-sample conversion clamps before
scaling, so `[1.5, -2.0, 0.0]` produces `[32767, -32767, 0]` — the
maximum representable positive value, the negation of that maximum (one
above the minimum representable value), and zero — and every sample, in
range or not, lands in `[-32767, 32767]`: saturation, never wrap. -/
theorem clamp_saturates :
    List.map sampleToInt16 [3/2, -2, 0] = [32767, -32767, 0] ∧
    ∀ x : ℚ, -32767 ≤ sampleToInt16 x ∧ sampleToInt16 x ≤ 32767 := by
  constructor
  · simp only [List.map_cons, List.map_nil]
    have e1 : sampleToInt16 (3/2) = 32767 := by
      rw [sampleToInt16, ratTrunc]
      norm_num
    have e2 : sampleToInt16 (-2) = -32767 := by
      rw [sampleToInt16, ratTrunc]
      norm_num
      rw [show ((-32767 : ℚ)) = ((-32767 : ℤ) : ℚ) by norm_num, Int.ceil_intCast]
    have e3 : sampleToInt16 0 = 0 := by
      rw [sampleToInt16, ratTrunc]
      norm_num
    rw [e1, e2, e3]
  · exact sampleToInt16_bounds

/-! ## C9 / C10: resampler length law and range preservation -/

theorem resample_index_lt (len : Nat) (ratio : ℚ) (hr : 0 < ratio) (i : Nat)
    (hi : i < (⌈(len : ℚ) / ratio⌉).toNat) :
    (⌊(i : ℚ) * ratio⌋).toNat < len := by
  have h1 : (i : ℤ) < ⌈(len : ℚ) / ratio⌉ := Int.lt_toNat.mp hi
  have h2 : (i : ℚ) < (len : ℚ) / ratio := by
    have := Int.lt_ceil.mp h1
    exact_mod_cast this
  have h3 : (i : ℚ) * ratio < (len : ℚ) := by
    rw [← lt_div_iff₀ hr]
    exact h2
  have h4 : ⌊(i : ℚ) * ratio⌋ < (len : ℤ) := by
    apply Int.floor_lt.mpr
    exact_mod_cast h3
  have h5 : (0 : ℚ) < (len : ℚ) :=
    lt_of_le_of_lt (mul_nonneg (by positivity) (le_of_lt hr)) h3
  have h6 : 0 < len := by exact_mod_cast h5
  omega

theorem list_mean_bounds (l : List ℚ) (hl : l ≠ []) (lo hi : ℚ)
    (h : ∀ x ∈ l, lo ≤ x ∧ x ≤ hi) :
    lo ≤ l.sum / l.length ∧ l.sum / l.length ≤ hi := by
  have hlen : 0 < (l.length : ℚ) := by
    have : 0 < l.length := List.length_pos.mpr hl
    exact_mod_cast this
  have hsum_le : l.sum ≤ l.length • hi :=
    List.sum_le_card_nsmul l hi (fun x hx => (h x hx).2)
  have hle_sum : l.length • lo ≤ l.sum :=
    List.card_nsmul_le_sum l lo (fun x hx => (h x hx).1)
  rw [nsmul_eq_mul] at hsum_le hle_sum
  constructor
  · rw [le_div_iff₀ hlen]
    linarith
  · rw [div_le_iff₀ hlen]
    linarith

theorem getD_mem_of_lt (l : List ℚ) (i : Nat) (h : i < l.length) :
    l.getD i 0 ∈ l := by
  rw [List.getD_eq_getElem _ _ h]
  exact List.getElem_mem h

/-- C9: for every input block and every positive `inputRate ≠ 16000`, the
output of both resampler variants has exactly
`⌈len(x) * 16000 / inputRate⌉` samples (exact rational ceiling). -/
theorem resample_length (buffer : List ℚ) (inputRate : ℚ)
    (h16 : inputRate ≠ 16000) (hpos : 0 < inputRate) :
    ((downsampleTo16k buffer inputRate).length : ℤ)
        = ⌈((buffer.length : ℚ) * 16000) / inputRate⌉ ∧
    ((downsampleTo16kLinear buffer inputRate).length : ℤ)
        = ⌈((buffer.length : ℚ) * 16000) / inputRate⌉ := by
  have hratio : (buffer.length : ℚ) / (inputRate / 16000)
      = (buffer.length : ℚ) * 16000 / inputRate := div_div_eq_mul_div _ _ _
  have hnonneg : (0 : ℤ) ≤ ⌈((buffer.length : ℚ) * 16000) / inputRate⌉ := by
    apply Int.ceil_nonneg
    positivity
  constructor
  · unfold downsampleTo16k
    rw [if_neg h16]
    simp only [List.length_map, List.length_range]
    rw [hratio, Int.toNat_of_nonneg hnonneg]
  · unfold downsampleTo16kLinear
    rw [if_neg h16]
    simp only [List.length_map, List.length_range]
    rw [hratio, Int.toNat_of_nonneg hnonneg]

/-- Witness for C9: a 3-sample block at 48 kHz. -/
theorem resample_length_witness :
    (48000 : ℚ) ≠ 16000 ∧ (0 : ℚ) < 48000 ∧
    (((downsampleTo16k [1/2, 1/4, 3/4] 48000).length : ℤ)
        = ⌈((([1/2, 1/4, 3/4] : List ℚ).length : ℚ) * 16000) / 48000⌉ ∧
     ((downsampleTo16kLinear [1/2, 1/4, 3/4] 48000).length : ℤ)
        = ⌈((([1/2, 1/4, 3/4] : List ℚ).length : ℚ) * 16000) / 48000⌉) :=
  ⟨by norm_num, by norm_num,
   resample_length [1/2, 1/4, 3/4] 48000 (by norm_num) (by norm_num)⟩

/-- C10: for every positive input rate, every output sample of both
resampler variants lies within any bounds enclosing the input block's
samples (the boxcar variant emits a window mean or a nearest-sample
fallback, the linear variant a convex combination of adjacent samples);
in particular a block within [-1, 1] resamples into [-1, 1]. -/
theorem resample_bounded (buffer : List ℚ) (inputRate : ℚ) (hpos : 0 < inputRate)
    (lo hi : ℚ) (hb : ∀ x ∈ buffer, lo ≤ x ∧ x ≤ hi) :
    (∀ y ∈ downsampleTo16k buffer inputRate, lo ≤ y ∧ y ≤ hi) ∧
    (∀ y ∈ downsampleTo16kLinear buffer inputRate, lo ≤ y ∧ y ≤ hi) := by
  by_cases h16 : inputRate = 16000
  · constructor <;> intro y hy
    · rw [downsampleTo16k, if_pos h16] at hy
      exact hb y hy
    · rw [downsampleTo16kLinear, if_pos h16] at hy
      exact hb y hy
  · have hr : 0 < inputRate / 16000 := by positivity
    constructor <;> intro y hy
    · rw [downsampleTo16k, if_neg h16] at hy
      rw [List.mem_map] at hy
      obtain ⟨i, hi', rfl⟩ := hy
      rw [List.mem_range] at hi'
      dsimp only
      have hstart : (⌊(i : ℚ) * (inputRate / 16000)⌋).toNat < buffer.length :=
        resample_index_lt _ _ hr i hi'
      split_ifs with hw
      · apply list_mean_bounds _ _ lo hi
        · intro x hx
          exact hb x (List.mem_of_mem_drop (List.mem_of_mem_take hx))
        · intro hempty
          rw [hempty] at hw
          simp at hw
      · exact hb _ (getD_mem_of_lt _ _ hstart)
    · rw [downsampleTo16kLinear, if_neg h16] at hy
      rw [List.mem_map] at hy
      obtain ⟨i, hi', rfl⟩ := hy
      rw [List.mem_range] at hi'
      dsimp only
      have hidx : (⌊(i : ℚ) * (inputRate / 16000)⌋).toNat < buffer.length :=
        resample_index_lt _ _ hr i hi'
      have hf0 : (0 : ℚ) ≤ (i : ℚ) * (inputRate / 16000) - (⌊(i : ℚ) * (inputRate / 16000)⌋ : ℚ) := by
        have := Int.floor_le ((i : ℚ) * (inputRate / 16000))
        linarith
      have hf1 : (i : ℚ) * (inputRate / 16000) - (⌊(i : ℚ) * (inputRate / 16000)⌋ : ℚ) < 1 := by
        have := Int.lt_floor_add_one ((i : ℚ) * (inputRate / 16000))
        linarith
      split_ifs with hcase
      · have ha := hb _ (getD_mem_of_lt buffer _ hidx)
        have hbb := hb _ (getD_mem_of_lt buffer _ hcase)
        constructor
        · nlinarith [mul_nonneg hf0 (sub_nonneg.mpr hbb.1),
            mul_nonneg (by linarith : (0:ℚ) ≤ 1 - ((i : ℚ) * (inputRate / 16000) - (⌊(i : ℚ) * (inputRate / 16000)⌋ : ℚ))) (sub_nonneg.mpr ha.1)]
        · nlinarith [mul_nonneg hf0 (sub_nonneg.mpr hbb.2),
            mul_nonneg (by linarith : (0:ℚ) ≤ 1 - ((i : ℚ) * (inputRate / 16000) - (⌊(i : ℚ) * (inputRate / 16000)⌋ : ℚ))) (sub_nonneg.mpr ha.2)]
      · exact hb _ (getD_mem_of_lt _ _ hidx)

/-- Witness for C10: a concrete in-range block at 48 kHz stays in range. -/
theorem resample_bounded_witness :
    (0 : ℚ) < 48000 ∧
    (∀ x ∈ ([1/2, -1/4] : List ℚ), (-1 : ℚ) ≤ x ∧ x ≤ 1) ∧
    ((∀ y ∈ downsampleTo16k [1/2, -1/4] 48000, (-1 : ℚ) ≤ y ∧ y ≤ 1) ∧
     (∀ y ∈ downsampleTo16kLinear [1/2, -1/4] 48000, (-1 : ℚ) ≤ y ∧ y ≤ 1)) :=
  have hb : ∀ x ∈ ([1/2, -1/4] : List ℚ), (-1 : ℚ) ≤ x ∧ x ≤ 1 := by
    intro x hx
    simp only [List.mem_cons, List.not_mem_nil, or_false] at hx
    rcases hx with rfl | rfl <;> norm_num
  ⟨by norm_num, hb, resample_bounded [1/2, -1/4] 48000 (by norm_num) (-1) 1 hb⟩

/-! ## C5: retry / non-retry boundary -/

/-- Errors the claim singles out as retryable: no status (network
error), 429, or a 5xx status. -/
def RetryableErr (e : JsError) : Prop :=
  e.status = none ∨ e.status = some 429 ∨ ∃ c, e.status = some c ∧ 500 ≤ c

theorem nonRetryable_false_of_retryable (e : JsError) (h : RetryableErr e) :
    nonRetryable e = false := by
  rcases h with h | h | ⟨c, h, hc⟩ <;> simp [nonRetryable, h]
  omega

/-- C5: with the default budget (`retries = 3`, `delay = 1000`):
an operation whose first attempt fails with a 4xx status other than 429
propagates that error with no retry and no delay; an operation that keeps
failing with a retryable error (429, 5xx, or a statusless network error)
is retried with doubling delays 1000, 2000, 4000 ms, after which the
error of the final attempt propagates; and a constant-429 failure is
retried exactly like a constant-500 failure. -/
theorem retry_policy :
    (∀ (α : Type) (op : Nat → Except JsError α) (e : JsError) (st : Nat),
        op 0 = .error e → e.status = some st → 400 ≤ st → st < 500 → st ≠ 429 →
        retryWithBackoff op 3 1000 0 = (.error e, [])) ∧
    (∀ (α : Type) (errf : Nat → JsError), (∀ n, RetryableErr (errf n)) →
        retryWithBackoff (α := α) (fun n => .error (errf n)) 3 1000 0
          = (.error (errf 3), [1000, 2000, 4000])) ∧
    (∀ (α : Type) (m1 m2 : String),
        retryWithBackoff (α := α) (fun _ => .error ⟨some 429, m1⟩) 3 1000 0
          = (.error ⟨some 429, m1⟩, [1000, 2000, 4000]) ∧
        retryWithBackoff (α := α) (fun _ => .error ⟨some 500, m2⟩) 3 1000 0
          = (.error ⟨some 500, m2⟩, [1000, 2000, 4000])) := by
  refine ⟨?_, ?_, ?_⟩
  · intro α op e st hop hst h4 h5 h9
    have hnr : nonRetryable e = true := by
      simp [nonRetryable, hst]
      omega
    simp [retryWithBackoff, hop, hnr]
  · intro α errf h
    have h0 := nonRetryable_false_of_retryable _ (h 0)
    have h1 := nonRetryable_false_of_retryable _ (h 1)
    have h2 := nonRetryable_false_of_retryable _ (h 2)
    simp [retryWithBackoff, h0, h1, h2]
  · intro α m1 m2
    constructor <;>
      simp [retryWithBackoff, nonRetryable]

/-- Witness for C5: a 404 fails fast; constant 429 and 500 failures and
a statusless network failure exhaust the budget with delays
1000/2000/4000. -/
theorem retry_policy_witness :
    ((fun _ : Nat => (.error ⟨some 404, "not found"⟩ : Except JsError Unit)) 0
        = .error ⟨some 404, "not found"⟩) ∧
    (∀ n : Nat, RetryableErr ((fun _ : Nat => (⟨none, "fetch failed"⟩ : JsError)) n)) ∧
    (retryWithBackoff (fun _ : Nat => (.error ⟨some 404, "not found"⟩ : Except JsError Unit)) 3 1000 0
        = (.error ⟨some 404, "not found"⟩, []) ∧
     retryWithBackoff (α := Unit) (fun n => .error ((fun _ : Nat => (⟨none, "fetch failed"⟩ : JsError)) n)) 3 1000 0
        = (.error ((fun _ : Nat => (⟨none, "fetch failed"⟩ : JsError)) 3), [1000, 2000, 4000]) ∧
     retryWithBackoff (α := Unit) (fun _ => .error ⟨some 429, "busy"⟩) 3 1000 0
        = (.error ⟨some 429, "busy"⟩, [1000, 2000, 4000]) ∧
     retryWithBackoff (α := Unit) (fun _ => .error ⟨some 500, "ise"⟩) 3 1000 0
        = (.error ⟨some 500, "ise"⟩, [1000, 2000, 4000])) :=
  have hr : ∀ n : Nat, RetryableErr ((fun _ : Nat => (⟨none, "fetch failed"⟩ : JsError)) n) :=
    fun _ => Or.inl rfl
  ⟨rfl, hr,
    retry_policy.1 Unit _ ⟨some 404, "not found"⟩ 404 rfl rfl (by decide) (by decide) (by decide),
    retry_policy.2.1 Unit _ hr,
    (retry_policy.2.2 Unit "busy" "ise").1,
    (retry_policy.2.2 Unit "busy" "ise").2⟩

/-! ## C1: stale-attempt callbacks are no-ops -/

/-- C1: every asynchronous callback registered by `startSession`
(connection-state change, audio data, transcript, turn-complete,
interruption, volume, error) and the continuation after `connect`
settles leave the orchestrator state — connection state, message log,
scheduled audio, speaking flags, reconnect timer, and all the rest —
completely untouched whenever the attempt id the callback captured is no
longer the orchestrator's active attempt id. -/
theorem stale_attempt_noop (s : Maritime.OrchState) (cid : Nat)
    (h : s.activeSessionId ≠ some cid) :
    (∀ (ragMode : Bool) (st : Maritime.ConnectionState) (now : ℤ),
        Maritime.onStateChange cid ragMode st now s = s) ∧
    (∀ (data : List Nat) (audioNow : ℚ), Maritime.onAudioData cid data audioNow s = s) ∧
    (∀ (user model : String) (now : ℤ), Maritime.onTranscript cid user model now s = s) ∧
    Maritime.onTurnComplete cid s = s ∧
    (∀ audioNow : ℚ, Maritime.onInterrupted cid audioNow s = s) ∧
    (∀ vol : ℚ, Maritime.onVolumeChange cid vol s = s) ∧
    (∀ (err : JsError) (now : ℤ), Maritime.onError cid err now s = s) ∧
    (∀ (clientId : Nat) (result : Except JsError Unit) (now : ℤ),
        Maritime.afterConnect cid clientId result now s = s) := by
  refine ⟨?_, ?_, ?_, ?_, ?_, ?_, ?_, ?_⟩
  · intro ragMode st now
    rw [Maritime.onStateChange, if_pos h]
  · intro data audioNow
    rw [Maritime.onAudioData, if_neg h]
  · intro user model now
    rw [Maritime.onTranscript, if_pos h]
  · rw [Maritime.onTurnComplete, if_pos h]
  · intro audioNow
    rw [Maritime.onInterrupted, if_pos h]
  · intro vol
    rw [Maritime.onVolumeChange, if_neg h]
  · intro err now
    rw [Maritime.onError, if_pos h]
  · intro clientId result now
    cases result with
    | error e =>
      rw [Maritime.afterConnect, if_neg h]
    | ok u =>
      rw [Maritime.afterConnect, if_pos h]

/-- Witness for C1: attempt 7's callbacks do nothing on a state whose
active attempt is 0. -/
theorem stale_attempt_noop_witness :
    Maritime.baseState.activeSessionId ≠ some 7 ∧
    ((∀ (ragMode : Bool) (st : Maritime.ConnectionState) (now : ℤ),
        Maritime.onStateChange 7 ragMode st now Maritime.baseState = Maritime.baseState) ∧
     (∀ (data : List Nat) (audioNow : ℚ),
        Maritime.onAudioData 7 data audioNow Maritime.baseState = Maritime.baseState) ∧
     (∀ (user model : String) (now : ℤ),
        Maritime.onTranscript 7 user model now Maritime.baseState = Maritime.baseState) ∧
     Maritime.onTurnComplete 7 Maritime.baseState = Maritime.baseState ∧
     (∀ audioNow : ℚ, Maritime.onInterrupted 7 audioNow Maritime.baseState = Maritime.baseState) ∧
     (∀ vol : ℚ, Maritime.onVolumeChange 7 vol Maritime.baseState = Maritime.baseState) ∧
     (∀ (err : JsError) (now : ℤ),
        Maritime.onError 7 err now Maritime.baseState = Maritime.baseState) ∧
     (∀ (clientId : Nat) (result : Except JsError Unit) (now : ℤ),
        Maritime.afterConnect 7 clientId result now Maritime.baseState = Maritime.baseState)) :=
  ⟨by decide, stale_attempt_noop Maritime.baseState 7 (by decide)⟩

/-! ## C2: crash-loop guard on disconnect -/

/-- C2 counterexample: a session that reaches `Disconnected` exactly
10000 ms (= the 10-second threshold) after the attempt started, with
auto-reconnect enabled, does *not* get a reconnect timer — the code
requires strictly more than 10000 ms — and instead auto-reconnect is
disabled; the claim's "at or above the threshold" clause is false at this
boundary input. -/
theorem crash_loop_counterexample :
    10000 - Maritime.baseState.sessionStartTime = 10000 ∧
    Maritime.baseState.autoconnect = true ∧
    Maritime.baseState.activeSessionId = some 0 ∧
    (Maritime.onStateChange 0 false .DISCONNECTED 10000 Maritime.baseState).reconnectTimer
        = none ∧
    (Maritime.onStateChange 0 false .DISCONNECTED 10000 Maritime.baseState).autoconnect
        = false := by
  refine ⟨by decide, rfl, rfl, ?_, ?_⟩ <;> decide

/-- C2 (amended): when the session reaches `Disconnected` for the live
attempt while auto-reconnect is enabled: if the elapsed time since the
attempt started is at most 10000 ms (in particular at exactly the
threshold), auto-reconnect is disabled and no reconnect timer is
scheduled; if the elapsed time strictly exceeds 10000 ms, exactly one
reconnect timer is scheduled with the fixed 3000 ms backoff, carrying the
same attempt id and mode, with the stored documents unchanged. -/
theorem crash_loop_guard (s : Maritime.OrchState) (cid : Nat) (ragMode : Bool) (now : ℤ)
    (hid : s.activeSessionId = some cid) (hac : s.autoconnect = true) :
    (now - s.sessionStartTime ≤ 10000 →
        (Maritime.onStateChange cid ragMode .DISCONNECTED now s).autoconnect = false ∧
        (Maritime.onStateChange cid ragMode .DISCONNECTED now s).reconnectTimer
            = s.reconnectTimer) ∧
    (10000 < now - s.sessionStartTime →
        (Maritime.onStateChange cid ragMode .DISCONNECTED now s).reconnectTimer
            = some { attemptId := cid, ragMode := ragMode, delayMs := 3000 } ∧
        (Maritime.onStateChange cid ragMode .DISCONNECTED now s).autoconnect = true ∧
        (Maritime.onStateChange cid ragMode .DISCONNECTED now s).documents = s.documents) := by
  rw [Maritime.onStateChange, if_neg (by simp [hid])]
  simp only [reduceCtorEq, if_false, if_true, Maritime.addMessage]
  constructor
  · intro hle
    rw [if_pos (by simp [hac]), if_neg (by omega)]
    exact ⟨rfl, rfl⟩
  · intro hlt
    rw [if_pos (by simp [hac]), if_pos (by omega)]
    exact ⟨rfl, by simp [hac], rfl⟩

/-- Witness for C2: live attempt 0, auto-reconnect on, disconnect at
`now = 20000` with start time 0. -/
theorem crash_loop_guard_witness :
    Maritime.baseState.activeSessionId = some 0 ∧
    Maritime.baseState.autoconnect = true ∧
    ((20000 - Maritime.baseState.sessionStartTime ≤ 10000 →
        (Maritime.onStateChange 0 false .DISCONNECTED 20000 Maritime.baseState).autoconnect
            = false ∧
        (Maritime.onStateChange 0 false .DISCONNECTED 20000 Maritime.baseState).reconnectTimer
            = Maritime.baseState.reconnectTimer) ∧
     (10000 < 20000 - Maritime.baseState.sessionStartTime →
        (Maritime.onStateChange 0 false .DISCONNECTED 20000 Maritime.baseState).reconnectTimer
            = some { attemptId := 0, ragMode := false, delayMs := 3000 } ∧
        (Maritime.onStateChange 0 false .DISCONNECTED 20000 Maritime.baseState).autoconnect
            = true ∧
        (Maritime.onStateChange 0 false .DISCONNECTED 20000 Maritime.baseState).documents
            = Maritime.baseState.documents)) :=
  ⟨rfl, rfl, crash_loop_guard Maritime.baseState 0 false 20000 rfl rfl⟩

/-! ## C3: output scheduler start times -/

/-- C3 counterexample: when the cursor equals the current clock time
exactly (here both 0, as right after `stopAllAudio`), `playAudioChunk`
starts the block at exactly the current clock time with no safety
margin, contradicting the claim that every block starts at or after
clock + margin. -/
theorem scheduler_counterexample :
    Maritime.baseState.nextStartTime = 0 ∧
    (Maritime.playAudioChunk [0, 0, 0, 0] 0 Maritime.baseState).activeAudioSources
        = [{ start := 0, duration := 1/12000 }] ∧
    ¬ ((0 : ℚ) + 1/100 ≤ 0) := by
  refine ⟨rfl, ?_, by norm_num⟩
  norm_num [Maritime.playAudioChunk, Maritime.baseState, convertPCMToAudioBuffer]

/-- C3 (amended): each scheduled block starts no earlier than the
previous block's start plus its duration (the cursor) and no earlier
than the current clock time; when the cursor has fallen strictly behind
the clock the block starts at exactly clock + 0.01 s (the safety
margin), but when the cursor is at or ahead of the clock the block
starts at the cursor — which can equal the current clock time exactly. -/
theorem scheduler_monotone (s : Maritime.OrchState) (pcm1 pcm2 : List Nat)
    (now1 now2 : ℚ) :
    ∃ b1 b2 : Maritime.ScheduledBlock,
      (Maritime.playAudioChunk pcm1 now1 s).activeAudioSources
          = s.activeAudioSources ++ [b1] ∧
      (Maritime.playAudioChunk pcm2 now2 (Maritime.playAudioChunk pcm1 now1 s)).activeAudioSources
          = (Maritime.playAudioChunk pcm1 now1 s).activeAudioSources ++ [b2] ∧
      (Maritime.playAudioChunk pcm1 now1 s).nextStartTime = b1.start + b1.duration ∧
      b1.start + b1.duration ≤ b2.start ∧
      now1 ≤ b1.start ∧ now2 ≤ b2.start ∧
      (s.nextStartTime < now1 → b1.start = now1 + 1/100) ∧
      (now1 ≤ s.nextStartTime → b1.start = s.nextStartTime) ∧
      ((Maritime.playAudioChunk pcm1 now1 s).nextStartTime < now2 →
          b2.start = now2 + 1/100) := by
  have hd1 : (0 : ℚ) ≤ ((convertPCMToAudioBuffer pcm1).length : ℚ) / 24000 := by positivity
  have hnext : (Maritime.playAudioChunk pcm1 now1 s).nextStartTime
      = (if s.nextStartTime < now1 then now1 + 1/100 else s.nextStartTime)
        + ((convertPCMToAudioBuffer pcm1).length : ℚ) / 24000 := rfl
  refine ⟨⟨if s.nextStartTime < now1 then now1 + 1/100 else s.nextStartTime,
           ((convertPCMToAudioBuffer pcm1).length : ℚ) / 24000⟩,
          ⟨if (Maritime.playAudioChunk pcm1 now1 s).nextStartTime < now2 then now2 + 1/100
             else (Maritime.playAudioChunk pcm1 now1 s).nextStartTime,
           ((convertPCMToAudioBuffer pcm2).length : ℚ) / 24000⟩,
          rfl, rfl, rfl, ?_, ?_, ?_, ?_, ?_, ?_⟩
  · rw [hnext]
    split_ifs with h1 h2 h2
    · linarith
    · linarith
    · linarith
    · linarith
  · split_ifs with h1
    · linarith
    · linarith
  · rw [hnext]
    split_ifs with h1 h2 h2
    · linarith
    · linarith
    · linarith
    · linarith
  · intro h
    rw [if_pos h]
  · intro h
    rw [if_neg (not_lt.mpr h)]
  · intro h
    rw [if_pos h]

/-- Witness for C3: two chunks scheduled against a zero-cursor state. -/
theorem scheduler_monotone_witness :
    ∃ b1 b2 : Maritime.ScheduledBlock,
      (Maritime.playAudioChunk [1, 0] 2 Maritime.baseState).activeAudioSources
          = Maritime.baseState.activeAudioSources ++ [b1] ∧
      (Maritime.playAudioChunk [2, 0] 3 (Maritime.playAudioChunk [1, 0] 2 Maritime.baseState)).activeAudioSources
          = (Maritime.playAudioChunk [1, 0] 2 Maritime.baseState).activeAudioSources ++ [b2] ∧
      (Maritime.playAudioChunk [1, 0] 2 Maritime.baseState).nextStartTime
          = b1.start + b1.duration ∧
      b1.start + b1.duration ≤ b2.start ∧
      (2 : ℚ) ≤ b1.start ∧ (3 : ℚ) ≤ b2.start ∧
      (Maritime.baseState.nextStartTime < 2 → b1.start = 2 + 1/100) ∧
      ((2 : ℚ) ≤ Maritime.baseState.nextStartTime → b1.start = Maritime.baseState.nextStartTime) ∧
      ((Maritime.playAudioChunk [1, 0] 2 Maritime.baseState).nextStartTime < 3 →
          b2.start = 3 + 1/100) :=
  scheduler_monotone Maritime.baseState [1, 0] [2, 0] 2 3

/-! ## C4: asset queue single-flight FIFO -/

theorem beginJob_busy (s : AssetQueue.AMState) (h : s.isProcessing = true) :
    AssetQueue.beginJob s = s := by
  rw [AssetQueue.beginJob, if_pos (Or.inl h)]

theorem beginJob_dequeues (s : AssetQueue.AMState) (j : AssetQueue.ProposedAsset)
    (rest : List AssetQueue.ProposedAsset)
    (hp : s.isProcessing = false) (hq : s.assetQueue = j :: rest) :
    (AssetQueue.beginJob s).isProcessing = true ∧
    (AssetQueue.beginJob s).inFlight = some j ∧
    (AssetQueue.beginJob s).assetQueue = rest ∧
    (AssetQueue.beginJob s).assets = s.assets := by
  have hcond : ¬(s.isProcessing = true ∨ s.assetQueue = []) := by
    simp [hp, hq]
  rw [AssetQueue.beginJob, if_neg hcond, hq]
  exact ⟨rfl, rfl, rfl, rfl⟩

theorem finishJob_clears (o : Except JsError AssetQueue.GenResult) (now : ℤ)
    (s : AssetQueue.AMState) (j : AssetQueue.ProposedAsset) (h : s.inFlight = some j) :
    (AssetQueue.finishJob o now s).isProcessing = false ∧
    (AssetQueue.finishJob o now s).inFlight = none ∧
    (AssetQueue.finishJob o now s).assetQueue = s.assetQueue := by
  rw [AssetQueue.finishJob, h]
  cases o with
  | error e => exact ⟨rfl, rfl, rfl⟩
  | ok r =>
    dsimp only
    split_ifs <;> first
      | exact ⟨rfl, rfl, rfl⟩
      | (split <;> exact ⟨rfl, rfl, rfl⟩)

theorem drain_fifo : ∀ (q : List AssetQueue.ProposedAsset)
    (outs : List (Except JsError AssetQueue.GenResult))
    (s : AssetQueue.AMState) (now : ℤ),
    s.isProcessing = false → s.assetQueue = q → outs.length = q.length →
    (AssetQueue.drain now s outs).2 = q
  | q, [], s, now => fun _ hq hlen => by
      have : q = [] := by
        cases q with
        | nil => rfl
        | cons a l => simp at hlen
      rw [this, AssetQueue.drain]
  | q, o :: os, s, now => fun hp hq hlen => by
      obtain ⟨j, rest, rfl⟩ : ∃ j rest, q = j :: rest := by
        cases q with
        | nil => simp at hlen
        | cons a l => exact ⟨a, l, rfl⟩
      have hbegin := beginJob_dequeues s j rest hp hq
      have hfin := finishJob_clears o now (AssetQueue.beginJob s) j hbegin.2.1
      have ih := drain_fifo rest os (AssetQueue.finishJob o now (AssetQueue.beginJob s)) now
        hfin.1 (by rw [hfin.2.2, hbegin.2.2.1]) (by simpa using hlen)
      rw [AssetQueue.drain, hbegin.2.1]
      simp only [ih]

/-- C4: the production queue is a single-flight FIFO — a tick while a job
is processing changes nothing, a tick on an idle non-empty queue takes
exactly the head job and raises the flag; a successful job appends
exactly one asset and marks it active, a failing job appends nothing,
emits the translated error log entry, and is not re-enqueued; both
outcomes clear the processing flag and leave the queue untouched; a
drain of the queue consumes the jobs exactly in `queueAsset` insertion
order. -/
theorem asset_queue_single_flight :
    (∀ s : AssetQueue.AMState, s.isProcessing = true → AssetQueue.beginJob s = s) ∧
    (∀ (s : AssetQueue.AMState) (j : AssetQueue.ProposedAsset)
        (rest : List AssetQueue.ProposedAsset),
        s.isProcessing = false → s.assetQueue = j :: rest →
        (AssetQueue.beginJob s).isProcessing = true ∧
        (AssetQueue.beginJob s).inFlight = some j ∧
        (AssetQueue.beginJob s).assetQueue = rest ∧
        (AssetQueue.beginJob s).assets = s.assets) ∧
    (∀ (s : AssetQueue.AMState) (j : AssetQueue.ProposedAsset) (u : String) (now : ℤ),
        s.inFlight = some j → j.type = "image" →
        (AssetQueue.finishJob (.ok (.url u)) now s).assets
            = s.assets ++ [{ id := s.nextId, type := j.type, description := j.description,
                             createdAt := now, url := some u, data := none }] ∧
        (AssetQueue.finishJob (.ok (.url u)) now s).activeAssetId = some s.nextId ∧
        (AssetQueue.finishJob (.ok (.url u)) now s).isProcessing = false ∧
        (AssetQueue.finishJob (.ok (.url u)) now s).inFlight = none ∧
        (AssetQueue.finishJob (.ok (.url u)) now s).assetQueue = s.assetQueue) ∧
    (∀ (s : AssetQueue.AMState) (j : AssetQueue.ProposedAsset) (d : AssetQueue.AssetData) (now : ℤ),
        s.inFlight = some j → j.type = "chart" →
        (AssetQueue.finishJob (.ok (.data d)) now s).assets
            = s.assets ++ [{ id := s.nextId, type := j.type, description := j.description,
                             createdAt := now, url := none, data := some d }] ∧
        (AssetQueue.finishJob (.ok (.data d)) now s).activeAssetId = some s.nextId ∧
        (AssetQueue.finishJob (.ok (.data d)) now s).isProcessing = false ∧
        (AssetQueue.finishJob (.ok (.data d)) now s).inFlight = none ∧
        (AssetQueue.finishJob (.ok (.data d)) now s).assetQueue = s.assetQueue) ∧
    (∀ (s : AssetQueue.AMState) (j : AssetQueue.ProposedAsset) (e : JsError) (now : ℤ),
        s.inFlight = some j →
        (AssetQueue.finishJob (.error e) now s).assets = s.assets ∧
        (AssetQueue.finishJob (.error e) now s).activeAssetId = s.activeAssetId ∧
        (AssetQueue.finishJob (.error e) now s).log
            = s.log ++ [AssetQueue.failLog e j.description] ∧
        (AssetQueue.finishJob (.error e) now s).isProcessing = false ∧
        (AssetQueue.finishJob (.error e) now s).inFlight = none ∧
        (AssetQueue.finishJob (.error e) now s).assetQueue = s.assetQueue) ∧
    (∀ (q : List AssetQueue.ProposedAsset)
        (outs : List (Except JsError AssetQueue.GenResult))
        (s : AssetQueue.AMState) (now : ℤ),
        s.isProcessing = false → s.assetQueue = q → outs.length = q.length →
        (AssetQueue.drain now s outs).2 = q) ∧
    (∀ (s : AssetQueue.AMState) (ty desc : String) (r : AssetQueue.AssetReason),
        (AssetQueue.queueAsset ty desc r s).assetQueue
            = s.assetQueue ++ [{ type := ty, description := desc, reason := r }]) := by
  refine ⟨beginJob_busy, beginJob_dequeues, ?_, ?_, ?_, drain_fifo, fun _ _ _ _ => rfl⟩
  · intro s j u now h htype
    rw [AssetQueue.finishJob, h]
    dsimp only
    rw [if_pos (Or.inl htype)]
    simp [htype]
  · intro s j d now h htype
    rw [AssetQueue.finishJob, h]
    dsimp only
    have c1 : (("chart" : String) = "image" ∨ ("chart" : String) = "video") = False := by
      simp
    have c2 : (("chart" : String) = "chart" ∨ ("chart" : String) = "diagram") = True := by
      simp
    rw [htype]
    simp only [c1, c2, true_or, if_false, if_true]
    rw [if_pos (Or.inr Option.isSome_some)]
    cases d with
    | chartRows rows =>
      cases rows with
      | nil => exact ⟨rfl, rfl, trivial, trivial, rfl⟩
      | cons r rs => exact ⟨rfl, rfl, trivial, trivial, rfl⟩
    | code src =>
      exact ⟨rfl, rfl, trivial, trivial, rfl⟩
  · intro s j e now h
    rw [AssetQueue.finishJob, h]
    exact ⟨rfl, rfl, rfl, rfl, rfl, rfl⟩

/-- Witness for C4: two queued jobs — an image that succeeds and a chart
that fails — are drained in insertion order. -/
theorem asset_queue_single_flight_witness :
    ({ AssetQueue.emptyState with
        assetQueue := [{ type := "image", description := "a ship", reason := .user_request },
                       { type := "chart", description := "cargo stats", reason := .system_suggestion }] }
      : AssetQueue.AMState).isProcessing = false ∧
    ([.ok (.url "blob:1"), .error ⟨some 500, "boom"⟩]
        : List (Except JsError AssetQueue.GenResult)).length
      = [({ type := "image", description := "a ship", reason := .user_request } : AssetQueue.ProposedAsset),
         { type := "chart", description := "cargo stats", reason := .system_suggestion }].length ∧
    (AssetQueue.drain 0
        { AssetQueue.emptyState with
          assetQueue := [{ type := "image", description := "a ship", reason := .user_request },
                         { type := "chart", description := "cargo stats", reason := .system_suggestion }] }
        [.ok (.url "blob:1"), .error ⟨some 500, "boom"⟩]).2
      = [{ type := "image", description := "a ship", reason := .user_request },
         { type := "chart", description := "cargo stats", reason := .system_suggestion }] :=
  ⟨rfl, rfl,
    asset_queue_single_flight.2.2.2.2.2.1
      [{ type := "image", description := "a ship", reason := .user_request },
       { type := "chart", description := "cargo stats", reason := .system_suggestion }]
      [.ok (.url "blob:1"), .error ⟨some 500, "boom"⟩]
      _ 0 rfl rfl rfl⟩
